import Mathlib

/-!
Verification of the account query engine in `src/tab.ts` of
Blockheads-Server-Currency (the `checkNames` pipeline of `initAccountsTab`,
its query parsing, sorting, capping, and the deletion flow), as a shallow
embedding in Lean.

Text is modelled as `List Char`; `upperChars`, `trimChars` and `inclChars`
model `String.prototype.toLocaleUpperCase`, `trim` and `includes` with ASCII
semantics.  JavaScript numbers are modelled as `Int` (all balances and
timestamps in play are integers).  `Array.prototype.sort` is modelled as a
stable merge sort (`List.mergeSort`) where an element `a` stays before `b`
exactly when the comparator returns a value `≤ 0`, matching the stable sorts
of all major JS engines.
-/

namespace Banking

/-- An account record (`AccountArrayElement` in `src/stored/accounts`):
a name, an integer balance, and an optional `last_daily_award` timestamp. -/
structure Account where
  name : String
  balance : Int
  last_daily_award : Option Int
deriving Repr, DecidableEq

/-- JavaScript truthiness test on an optional number: `undefined` and `0`
are falsy, every other number is truthy (models `!epoch` and
`!a.last_daily_award` in `tab.ts`). -/
def falsy : Option Int → Bool
  | none => true
  | some n => n == 0

/-- Numeric value of an optional timestamp (only used when it is present). -/
def awardVal : Option Int → Int
  | none => 0
  | some n => n

/-- Model of `toLocaleUpperCase` (ASCII semantics). -/
def upperChars (s : List Char) : List Char := s.map Char.toUpper

/-- Model of `String.prototype.trim`: drop leading and trailing whitespace. -/
def trimChars (s : List Char) : List Char :=
  ((s.dropWhile Char.isWhitespace).reverse.dropWhile Char.isWhitespace).reverse

/-- The normalized search text: `input.value.toLocaleUpperCase().trim()`
(line 94 of `tab.ts`). -/
def normalize (raw : String) : List Char := trimChars (upperChars raw.data)

/-- Whether `needle` occurs at the start of `hay`. -/
def startsWithChars : List Char → List Char → Bool
  | _, [] => true
  | [], _ :: _ => false
  | h :: t, n :: ns => h == n && startsWithChars t ns

/-- Model of `String.prototype.includes`: `needle` occurs somewhere in
`hay` (contiguously). -/
def inclChars : List Char → List Char → Bool
  | [], needle => needle.isEmpty
  | c :: t, needle => startsWithChars (c :: t) needle || inclChars t needle

/-- Whether the regex `balance:[<>]?\d+` (applied case-insensitively to
the already upper-cased search text) matches at the head of `l`:
the literal `BALANCE:`, an optional `<` or `>`, then a digit. -/
def balAt (l : List Char) : Bool :=
  if startsWithChars l "BALANCE:".data then
    match l.drop 8 with
    | '<' :: d :: _ => d.isDigit
    | '>' :: d :: _ => d.isDigit
    | d :: _ => d.isDigit
    | [] => false
  else false

/-- Model of `/balance:[<>]?\d+/i.test(name)` (line 102): the pattern
matches at some position of the search text. -/
def balanceTest : List Char → Bool
  | [] => false
  | c :: t => balAt (c :: t) || balanceTest t

/-- The first maximal digit run of the text, as matched by
`name.match(/(\d+)/)` (line 103). -/
def firstDigits : List Char → List Char
  | [] => []
  | c :: t => if c.isDigit then c :: t.takeWhile Char.isDigit else firstDigits t

/-- Decimal value of a digit run (models JS string-to-number coercion `+s`
on a nonempty digit string). -/
def digitsToNat (l : List Char) : Nat := l.foldl (fun n c => 10 * n + (c.toNat - 48)) 0

/-- The account predicate chosen by `checkNames` (lines 94-112 of
`tab.ts`): empty search matches everything; the exact token `IS:BANKER`
matches membership in the banker list; a text containing
`balance:[<>]?\d+` matches numerically on the balance (direction given by
whether a `<` or `>` occurs anywhere in the text); anything else is a
substring test of the (non-uppercased) record name against the
upper-cased search text. -/
def accountFilter (raw : String) (bankers : List String) (a : Account) : Bool :=
  let name := normalize raw
  if name = [] then true
  else if name = "IS:BANKER".data then bankers.contains a.name
  else if balanceTest name then
    let amount : Int := (digitsToNat (firstDigits name) : Nat)
    if name.contains '<' then decide (a.balance < amount)
    else if name.contains '>' then decide (a.balance > amount)
    else a.balance == amount
  else inclChars a.name.data name

/-- The four sort modes of the accounts tab (`getSortType`, line 80). -/
inductive SortType
  | bal_d
  | bal_a
  | daily_d
  | daily_a
deriving Repr, DecidableEq

/-- The comparator passed to `accounts.sort` for each mode
(lines 117-140 of `tab.ts`). -/
def comparator : SortType → Account → Account → Int
  | .bal_d, a, b => b.balance - a.balance
  | .bal_a, a, b => a.balance - b.balance
  | .daily_d, a, b =>
    if falsy a.last_daily_award then 1
    else if falsy b.last_daily_award then -1
    else awardVal b.last_daily_award - awardVal a.last_daily_award
  | .daily_a, a, b =>
    if falsy a.last_daily_award then 1
    else if falsy b.last_daily_award then -1
    else awardVal a.last_daily_award - awardVal b.last_daily_award

/-- Boolean order underlying a JS comparator: `a` may stay before `b`
exactly when the comparator result is `≤ 0`. -/
def cmpLE (cmp : Account → Account → Int) (a b : Account) : Bool :=
  cmp a b ≤ 0

/-- Model of `Array.prototype.sort(cmp)`: a stable merge sort driven by
the comparator. -/
def jsSort (cmp : Account → Account → Int) (l : List Account) : List Account :=
  l.mergeSort (cmpLE cmp)

/-- The truncation notice `Showing 300/${accounts.length} matches`
(line 143), with the pre-truncation match count. -/
def capMessage (total : Nat) : String :=
  "Showing 300/" ++ toString total ++ " matches"

/-- One run of the view pipeline: the rows that end up rendered and the
notifications emitted during the run. -/
structure ViewResult where
  shown : List Account
  notifications : List String
deriving Repr, DecidableEq

/-- The `checkNames` result pipeline (lines 94-148 of `tab.ts`): filter the
record snapshot with the parsed predicate, sort with the selected
comparator, and if more than 300 rows remain, notify once and truncate to
the first 300. -/
def runPipeline (raw : String) (mode : SortType) (records : List Account)
    (bankers : List String) : ViewResult :=
  let matched := records.filter (accountFilter raw bankers)
  let sorted := jsSort (comparator mode) matched
  if 300 < sorted.length then
    { shown := sorted.take 300, notifications := [capMessage sorted.length] }
  else
    { shown := sorted, notifications := [] }

/-- Instrumented read of `this.bankers.getBankers()` (line 100): returns
the store contents and increments a read counter. -/
def getBankersC (store : List String) (n : Nat) : List String × Nat :=
  (store, n + 1)

/-- Instrumented version of the predicate selection (lines 94-112),
threading a counter of banker-store reads.  The `IS:BANKER` branch reads
the store once, outside the returned closure; no other branch reads it. -/
def selectFilterC (raw : String) (store : List String) (n : Nat) :
    (Account → Bool) × Nat :=
  let name := normalize raw
  if name = [] then (fun _ => true, n)
  else if name = "IS:BANKER".data then
    let r := getBankersC store n
    (fun a => r.1.contains a.name, r.2)
  else if balanceTest name then
    let amount : Int := (digitsToNat (firstDigits name) : Nat)
    if name.contains '<' then (fun a => decide (a.balance < amount), n)
    else if name.contains '>' then (fun a => decide (a.balance > amount), n)
    else (fun a => a.balance == amount, n)
  else (fun a => inclChars a.name.data name, n)

/-- Instrumented filtering phase (line 114): choose the predicate, then
filter the records with it; the final counter value counts every
banker-store read performed during the whole phase. -/
def filterC (raw : String) (store : List String) (records : List Account)
    (n : Nat) : List Account × Nat :=
  let r := selectFilterC raw store n
  (records.filter r.1, r.2)

/-- Effects the deletion handler can perform on the stores
(lines 155-168 of `tab.ts`). -/
inductive Action
  | removeAccounts (names : List String)
  | rerun
deriving Repr, DecidableEq

/-- The deletion confirmation callback (lines 159-166): any response other
than `Delete` returns immediately; on `Delete` it collects the names of
the currently visible rows, passes them to the record store's bulk
remove, and immediately re-runs `checkNames`. -/
def deleteFlow (response : String) (visible : List Account) : List Action :=
  if response = "Delete" then
    [Action.removeAccounts (visible.map Account.name), Action.rerun]
  else []

/-- State touched by the deletion handler: record store contents, banker
flag store contents, and the currently displayed rows. -/
structure PanelState where
  records : List Account
  bankerFlags : List String
  displayed : List Account
deriving Repr, DecidableEq

/-- Interpretation of one action over the panel state, with the record
store's bulk remove and the re-run left abstract (they live outside
`tab.ts`). -/
def applyAction (remove : List Account → List String → List Account)
    (rerun : PanelState → PanelState) (s : PanelState) : Action → PanelState
  | .removeAccounts names => { s with records := remove s.records names }
  | .rerun => rerun s

/-- Interpretation of an action list over the panel state. -/
def applyActions (remove : List Account → List String → List Account)
    (rerun : PanelState → PanelState) (s : PanelState)
    (acts : List Action) : PanelState :=
  acts.foldl (applyAction remove rerun) s

/-- Modelled from the spec: the `debounce` helper is imported from
`src/helpers`, which is not part of the provided sources.  Per the spec,
each input event schedules a run `delay` time-units later and cancels the
previously scheduled run; a scheduled run is cancelled exactly when the
next event arrives strictly within the window.  `fireTimes` returns the
fire times of the scheduled runs that survive, given the burst's events
in chronological order. -/
def fireTimes (delay : Nat) : List (Nat × String) → List Nat
  | [] => []
  | [(t, _)] => [t + delay]
  | (t, _) :: e :: rest =>
    (if e.1 < t + delay then [] else [t + delay]) ++ fireTimes delay (e :: rest)

/-- Modelled from the spec: the input value current at a given time is the
value written by the latest event at or before that time (`dflt` if none),
for events in chronological order. -/
def valueAt (dflt : String) : List (Nat × String) → Nat → String
  | [], _ => dflt
  | e :: rest, t => if e.1 ≤ t then valueAt e.2 rest t else valueAt dflt rest t

/-- Modelled from the spec: the pipeline runs a debounced handler actually
performs for a burst of input events — one run per surviving timer, each
reading the input value current at its fire time. -/
def debounceRuns (delay : Nat) (dflt : String) (events : List (Nat × String)) :
    List (Nat × String) :=
  (fireTimes delay events).map (fun t => (t, valueAt dflt events t))

/-- A burst whose consecutive events are in strictly increasing time order
and always strictly closer together than `delay`. -/
def burstOk (delay : Nat) : List (Nat × String) → Bool
  | e :: e₂ :: rest => e.1 < e₂.1 && e₂.1 < e.1 + delay && burstOk delay (e₂ :: rest)
  | _ => true

/-- A record's rendered award date (`formatDate`, lines 60-64 of
`tab.ts`): `Never` when the timestamp is falsy, otherwise a
locale-dependent rendering of the timestamp, kept abstract here. -/
def formatDate (render : Int → String) (epoch : Option Int) : String :=
  if falsy epoch then "Never" else render (awardVal epoch)

end Banking

namespace Banking

/-- Claim C1 is false as stated: for the raw search text `alice` (non-empty,
not `IS:BANKER`, not a balance query) and a record named `alice`, the code's
predicate rejects the record (the record name is tested as stored, not
upper-cased), while the upper-cased record name does contain the upper-cased
trimmed search text. -/
theorem c1_counterexample :
    accountFilter "alice" [] ⟨"alice", 0, none⟩ = false ∧
    inclChars (upperChars ("alice".data)) (normalize "alice") = true := by
  decide

/-- Claim C1, amended: for every raw search string that is non-empty after
normalization, is not the token `IS:BANKER`, and does not match the numeric
balance pattern, the parsed predicate accepts a record if and only if the
record name as stored (not upper-cased) contains the upper-cased, trimmed
search text as a substring — matching is case-insensitive only on the
search-text side. -/
theorem c1_substring_fallback (raw : String) (bankers : List String) (r : Account)
    (h1 : normalize raw ≠ []) (h2 : normalize raw ≠ "IS:BANKER".data)
    (h3 : balanceTest (normalize raw) = false) :
    accountFilter raw bankers r = inclChars r.name.data (normalize raw) := by
  simp [accountFilter, h1, h2, h3]

/-- Witness for the amended C1 at the search text `li` and the record
`ALICE`. -/
theorem c1_substring_fallback_witness :
    normalize "li" ≠ [] ∧ normalize "li" ≠ "IS:BANKER".data ∧
    balanceTest (normalize "li") = false ∧
    accountFilter "li" [] ⟨"ALICE", 3, none⟩ = inclChars "ALICE".data (normalize "li") :=
  ⟨by decide, by decide, by decide,
    c1_substring_fallback "li" [] ⟨"ALICE", 3, none⟩ (by decide) (by decide) (by decide)⟩

/-- Claim C2 is false as stated: the search text `balance>50` (the comparator
form without a colon) is not recognized as a numeric query, because the
pattern `balance:[<>]?\d+` requires the colon.  It falls through to the
substring fallback, so a record with balance 60 — which the claim says must
be accepted — is rejected. -/
theorem c2_counterexample :
    accountFilter "balance>50" [] ⟨"X", 60, none⟩ = false ∧ (60 : Int) > 50 := by
  decide

/-- Claim C2, amended: `parse("balance:<100")` accepts exactly records with
balance < 100, `parse("balance:>50")` accepts exactly balance > 50, and
`parse("balance:75")` accepts exactly balance = 75; the comparator form
without a colon (`balance>50`) is not a numeric query and falls through to
the substring fallback. -/
theorem c2_balance_queries (bankers : List String) (r : Account) :
    (accountFilter "balance:<100" bankers r = decide (r.balance < 100)) ∧
    (accountFilter "balance:>50" bankers r = decide (r.balance > 50)) ∧
    (accountFilter "balance:75" bankers r = (r.balance == 75)) ∧
    (accountFilter "balance>50" bankers r = inclChars r.name.data "BALANCE>50".data) := by
  refine ⟨?_, ?_, ?_, ?_⟩
  · have e1 : (digitsToNat (firstDigits (normalize "balance:<100")) : Nat) = 100 := by decide
    simp only [accountFilter]
    rw [if_neg (by decide), if_neg (by decide), if_pos (by decide), if_pos (by decide), e1]
    simp
  · have e1 : (digitsToNat (firstDigits (normalize "balance:>50")) : Nat) = 50 := by decide
    simp only [accountFilter]
    rw [if_neg (by decide), if_neg (by decide), if_pos (by decide), if_neg (by decide),
      if_pos (by decide), e1]
    simp
  · have e1 : (digitsToNat (firstDigits (normalize "balance:75")) : Nat) = 75 := by decide
    simp only [accountFilter]
    rw [if_neg (by decide), if_neg (by decide), if_pos (by decide), if_neg (by decide),
      if_neg (by decide), e1]
    simp
  · have e2 : normalize "balance>50" = "BALANCE>50".data := by decide
    simp only [accountFilter]
    rw [if_neg (by decide), if_neg (by decide), if_neg (by decide), e2]

end Banking

namespace Banking

/-- A concrete snapshot of 301 records that all match the empty search. -/
def manyAccounts : List Account :=
  (List.range 301).map (fun i => ⟨"A", (i : Int), none⟩)

/-- Claim C3: in every pipeline run, if the filtered match list is longer
than 300, exactly 300 records are shown and exactly one notification
reporting the cap and the pre-truncation total is emitted; if it has at
most 300 entries, the whole sorted match list is shown (a permutation of
the matches) and no notification is emitted. -/
theorem c3_cap_and_notice (raw : String) (mode : SortType) (records : List Account)
    (bankers : List String) :
    ((records.filter (accountFilter raw bankers)).length ≤ 300 →
      (runPipeline raw mode records bankers).shown =
        jsSort (comparator mode) (records.filter (accountFilter raw bankers)) ∧
      (runPipeline raw mode records bankers).shown.Perm
        (records.filter (accountFilter raw bankers)) ∧
      (runPipeline raw mode records bankers).notifications = []) ∧
    (300 < (records.filter (accountFilter raw bankers)).length →
      (runPipeline raw mode records bankers).shown.length = 300 ∧
      (runPipeline raw mode records bankers).notifications =
        [capMessage (records.filter (accountFilter raw bankers)).length]) := by
  have hlen : (jsSort (comparator mode) (records.filter (accountFilter raw bankers))).length
      = (records.filter (accountFilter raw bankers)).length := by
    simp [jsSort]
  constructor
  · intro h
    have hcc : ¬ 300 < (records.filter (accountFilter raw bankers)).length := by omega
    refine ⟨?_, ?_, ?_⟩
    · simp [runPipeline, jsSort, hcc]
    · simpa [runPipeline, jsSort, hcc] using
        List.mergeSort_perm (records.filter (accountFilter raw bankers)) (cmpLE (comparator mode))
    · simp [runPipeline, jsSort, hcc]
  · intro h
    refine ⟨?_, ?_⟩
    · simp [runPipeline, jsSort, h]
      omega
    · simp [runPipeline, jsSort, h]

set_option maxRecDepth 100000 in
/-- Witness for C3: a 301-record snapshot under the empty search is capped
at 300 rows with the notice `Showing 300/301 matches`, and the empty
snapshot is shown whole with no notification. -/
theorem c3_cap_and_notice_witness :
    (300 < (manyAccounts.filter (accountFilter "" [])).length ∧
      (runPipeline "" .bal_a manyAccounts []).shown.length = 300 ∧
      (runPipeline "" .bal_a manyAccounts []).notifications =
        [capMessage (manyAccounts.filter (accountFilter "" [])).length]) ∧
    ((([] : List Account).filter (accountFilter "" [])).length ≤ 300 ∧
      (runPipeline "" .bal_a [] []).notifications = []) :=
  ⟨⟨by decide, ((c3_cap_and_notice "" .bal_a manyAccounts []).2 (by decide)).1,
      ((c3_cap_and_notice "" .bal_a manyAccounts []).2 (by decide)).2⟩,
    ⟨by decide, ((c3_cap_and_notice "" .bal_a [] []).1 (by decide)).2.2⟩⟩

/-- Claim C4: for two records of which exactly one has an absent (falsy)
`last_daily_award`, the record with the absent timestamp is ordered after
the other one under both last-award sort modes, whichever side of the
input pair it starts on. -/
theorem c4_absent_award_sorts_last (a b : Account)
    (ha : falsy a.last_daily_award = true) (hb : falsy b.last_daily_award = false) :
    jsSort (comparator .daily_d) [a, b] = [b, a] ∧
    jsSort (comparator .daily_d) [b, a] = [b, a] ∧
    jsSort (comparator .daily_a) [a, b] = [b, a] ∧
    jsSort (comparator .daily_a) [b, a] = [b, a] := by
  have h1 : cmpLE (comparator .daily_d) a b = false := by
    unfold cmpLE comparator
    simp [ha]
  have h2 : cmpLE (comparator .daily_d) b a = true := by
    unfold cmpLE comparator
    simp [ha, hb]
  have h3 : cmpLE (comparator .daily_a) a b = false := by
    unfold cmpLE comparator
    simp [ha]
  have h4 : cmpLE (comparator .daily_a) b a = true := by
    unfold cmpLE comparator
    simp [ha, hb]
  refine ⟨?_, ?_, ?_, ?_⟩ <;>
    simp [jsSort, List.mergeSort, List.merge, h1, h2, h3, h4]

/-- Witness for C4 at a record without award date and one with a nonzero
timestamp. -/
theorem c4_absent_award_sorts_last_witness :
    falsy (Account.mk "A" 0 none).last_daily_award = true ∧
    falsy (Account.mk "B" 0 (some 5)).last_daily_award = false ∧
    jsSort (comparator .daily_d) [⟨"A", 0, none⟩, ⟨"B", 0, some 5⟩] =
      [⟨"B", 0, some 5⟩, ⟨"A", 0, none⟩] :=
  ⟨by decide, by decide,
    (c4_absent_award_sorts_last ⟨"A", 0, none⟩ ⟨"B", 0, some 5⟩ (by decide) (by decide)).1⟩

/-- Claim C7: the pipeline result is a pure function of the raw search
text, the sort mode, the record snapshot and the banker flag set — two
runs with equal inputs produce the identical view result. -/
theorem c7_deterministic (rawa rawb : String) (ma mb : SortType)
    (ra rb : List Account) (ba bb : List String)
    (h1 : rawa = rawb) (h2 : ma = mb) (h3 : ra = rb) (h4 : ba = bb) :
    runPipeline rawa ma ra ba = runPipeline rawb mb rb bb := by
  subst h1 h2 h3 h4
  rfl

/-- Witness for C7 at concrete inputs. -/
theorem c7_deterministic_witness :
    runPipeline "bob" .bal_d [⟨"BOB", 4, some 1⟩] ["BOB"] =
      runPipeline "bob" .bal_d [⟨"BOB", 4, some 1⟩] ["BOB"] :=
  c7_deterministic "bob" "bob" .bal_d .bal_d _ _ _ _ rfl rfl rfl rfl

end Banking

namespace Banking

/-- Claim C9: in the deletion flow, confirming with `Delete` produces
exactly one bulk-remove carrying exactly the names of the currently
visible rows, followed immediately by a re-run; any other response
produces no actions, so applying the flow leaves the record store, the
banker flag store and the displayed list unchanged. -/
theorem c9_delete_flow (visible : List Account) (response : String)
    (h : response ≠ "Delete") :
    deleteFlow "Delete" visible =
      [Action.removeAccounts (visible.map Account.name), Action.rerun] ∧
    deleteFlow response visible = [] ∧
    (∀ (remove : List Account → List String → List Account)
        (rerun : PanelState → PanelState) (s : PanelState),
      applyActions remove rerun s (deleteFlow response visible) = s) := by
  refine ⟨?_, ?_, ?_⟩
  · simp [deleteFlow]
  · simp [deleteFlow, h]
  · intro remove rerun s
    simp [deleteFlow, h, applyActions]

/-- Witness for C9 at the response `Cancel` and one visible row. -/
theorem c9_delete_flow_witness :
    ("Cancel" : String) ≠ "Delete" ∧
    deleteFlow "Delete" [⟨"BOB", 2, none⟩] =
      [Action.removeAccounts ["BOB"], Action.rerun] ∧
    deleteFlow "Cancel" [⟨"BOB", 2, none⟩] = [] :=
  ⟨by decide, (c9_delete_flow [⟨"BOB", 2, none⟩] "Cancel" (by decide)).1,
    (c9_delete_flow [⟨"BOB", 2, none⟩] "Cancel" (by decide)).2.1⟩

/-- Claim C10: a record whose `last_daily_award` is present but equal to 0
is treated exactly like a record with an absent timestamp throughout the
pipeline: its award date renders as `Never`, the parsed predicate and
every sort comparator cannot tell the two apart, and both last-award sort
modes order it after every record with a nonzero (truthy) timestamp. -/
theorem c10_zero_award_is_absent (a b : Account)
    (hz : a.last_daily_award = some 0) (hn : b.last_daily_award = none)
    (hname : a.name = b.name) (hbal : a.balance = b.balance) :
    (∀ render : Int → String,
      formatDate render a.last_daily_award = "Never" ∧
      formatDate render a.last_daily_award = formatDate render b.last_daily_award) ∧
    (∀ (mode : SortType) (c : Account),
      comparator mode a c = comparator mode b c ∧
      comparator mode c a = comparator mode c b) ∧
    (∀ (raw : String) (bankers : List String),
      accountFilter raw bankers a = accountFilter raw bankers b) ∧
    (∀ c : Account, falsy c.last_daily_award = false →
      comparator .daily_d a c = 1 ∧ comparator .daily_a a c = 1) := by
  refine ⟨?_, ?_, ?_, ?_⟩
  · intro render
    constructor
    · simp [formatDate, hz, falsy]
    · simp [formatDate, hz, hn, falsy]
  · intro mode c
    cases mode <;>
      simp [comparator, hz, hn, hbal, falsy]
  · intro raw bankers
    simp only [accountFilter]
    split
    · rfl
    · split
      · rw [hname]
      · split
        · split
          · rw [hbal]
          · split
            · rw [hbal]
            · rw [hbal]
        · rw [hname]
  · intro c hc
    constructor <;> simp [comparator, hz, falsy]

/-- Witness for C10 at a zero-timestamp record, its absent-timestamp twin
and a record awarded at timestamp 5. -/
theorem c10_zero_award_is_absent_witness :
    (Account.mk "N" 2 (some 0)).last_daily_award = some 0 ∧
    formatDate (fun _ => "ts") (Account.mk "N" 2 (some 0)).last_daily_award = "Never" ∧
    comparator .daily_d (Account.mk "N" 2 (some 0)) (Account.mk "M" 3 (some 5)) = 1 :=
  ⟨rfl,
    ((c10_zero_award_is_absent ⟨"N", 2, some 0⟩ ⟨"N", 2, none⟩ rfl rfl rfl rfl).1
      (fun _ => "ts")).1,
    ((c10_zero_award_is_absent ⟨"N", 2, some 0⟩ ⟨"N", 2, none⟩ rfl rfl rfl rfl).2.2.2
      (Account.mk "M" 3 (some 5)) (by decide)).1⟩

end Banking

namespace Banking

/-- The instrumented predicate selection chooses exactly the predicate the
pipeline uses, whatever the initial read counter. -/
theorem selectFilterC_fst (raw : String) (store : List String) (n : Nat) :
    (selectFilterC raw store n).1 = accountFilter raw store := by
  funext a
  simp only [selectFilterC, accountFilter, getBankersC]
  split
  · rfl
  · split
    · rfl
    · split
      · split
        · rfl
        · split
          · rfl
          · rfl
      · rfl

/-- Claim C6: for a search text that normalizes to the exact token
`IS:BANKER`, the parsed predicate accepts a record if and only if the
record's name is in the banker flag set — independently of its balance
and `last_daily_award` — and the banker store is read exactly once while
choosing the predicate, with no further read per record filtered. -/
theorem c6_is_banker (raw : String) (store : List String)
    (h : normalize raw = "IS:BANKER".data) :
    (∀ a : Account, accountFilter raw store a = store.contains a.name) ∧
    (∀ (records : List Account) (n : Nat),
      (filterC raw store records n).2 = n + 1 ∧
      (filterC raw store records n).1 =
        records.filter (fun a => store.contains a.name)) := by
  constructor
  · intro a
    simp [accountFilter, h]
  · intro records n
    constructor
    · simp [filterC, selectFilterC, getBankersC, h]
    · simp [filterC, selectFilterC, getBankersC, h]

/-- Witness for C6 at the raw text ` is:Banker ` (case-insensitive, with
surrounding whitespace), a two-record snapshot and one flagged banker. -/
theorem c6_is_banker_witness :
    normalize " is:Banker " = "IS:BANKER".data ∧
    accountFilter " is:Banker " ["BOB"] ⟨"BOB", 7, some 1⟩ = ["BOB"].contains "BOB" ∧
    (filterC " is:Banker " ["BOB"] [⟨"BOB", 7, some 1⟩, ⟨"EVE", 1, none⟩] 0).2 = 0 + 1 :=
  ⟨by decide,
    (c6_is_banker " is:Banker " ["BOB"] (by decide)).1 ⟨"BOB", 7, some 1⟩,
    ((c6_is_banker " is:Banker " ["BOB"] (by decide)).2
      [⟨"BOB", 7, some 1⟩, ⟨"EVE", 1, none⟩] 0).1⟩

end Banking

namespace Banking

end Banking

namespace Banking

/-- In a well-formed burst every event happens no later than the last
event of the burst. -/
theorem burst_time_le_last (delay : Nat) :
    ∀ (events : List (Nat × String)) (hne : events ≠ []),
      burstOk delay events = true →
      ∀ x ∈ events, x.1 ≤ (events.getLast hne).1
  | [e], _, _, x, hx => by
    simp at hx
    simp [hx]
  | e :: e₂ :: rest, _, h, x, hx => by
    simp only [burstOk, Bool.and_eq_true, decide_eq_true_eq] at h
    have ih := burst_time_le_last delay (e₂ :: rest) (by simp) h.2
    rw [List.getLast_cons (by simp)]
    rcases List.mem_cons.mp hx with rfl | hx
    · exact le_trans (le_of_lt h.1.1) (ih e₂ (by simp))
    · exact ih x hx

/-- If all events of a well-formed burst happen strictly within `delay` of
their successor, only the last scheduled timer survives, and it fires
`delay` after the last event. -/
theorem fireTimes_burst (delay : Nat) :
    ∀ (events : List (Nat × String)) (hne : events ≠ []),
      burstOk delay events = true →
      fireTimes delay events = [(events.getLast hne).1 + delay]
  | [e], _, _ => by simp [fireTimes]
  | e :: e₂ :: rest, _, h => by
    simp only [burstOk, Bool.and_eq_true, decide_eq_true_eq] at h
    have ih := fireTimes_burst delay (e₂ :: rest) (by simp) h.2
    rw [List.getLast_cons (by simp)]
    simp [fireTimes, h.1.2, ih]

/-- When every event of a nonempty chronological list happens at or before
`t`, the input value current at `t` is the last event's value, whatever
the initial value. -/
theorem valueAt_of_all_le :
    ∀ (dflt : String) (events : List (Nat × String)) (hne : events ≠ []) (t : Nat),
      (∀ e ∈ events, e.1 ≤ t) →
      valueAt dflt events t = (events.getLast hne).2
  | dflt, [e], _, t, h => by
    simp [valueAt, h e (by simp)]
  | dflt, e :: e₂ :: rest, _, t, h => by
    have ih := valueAt_of_all_le e.2 (e₂ :: rest) (by simp) t
      (fun x hx => h x (List.mem_cons_of_mem _ hx))
    rw [List.getLast_cons (by simp)]
    rw [valueAt, if_pos (h e (List.mem_cons_self _ _))]
    exact ih

/-- Claim C8 (the `debounce` helper itself lives in `src/helpers`, outside
the provided sources, and is modelled from the spec): a burst of one or
more input events whose consecutive gaps are all strictly below the
300-unit quiet window produces exactly one pipeline run; it fires 300
units after the burst's last event and reads the input value current at
fire time, which is the last event's value. -/
theorem c8_debounce (events : List (Nat × String)) (dflt : String)
    (hne : events ≠ []) (hburst : burstOk 300 events = true) :
    debounceRuns 300 dflt events =
      [((events.getLast hne).1 + 300, (events.getLast hne).2)] := by
  have hf := fireTimes_burst 300 events hne hburst
  have hv := valueAt_of_all_le dflt events hne ((events.getLast hne).1 + 300)
    (fun e he => le_trans (burst_time_le_last 300 events hne hburst e he)
      (Nat.le_add_right _ _))
  simp [debounceRuns, hf, hv]

/-- Witness for C8: three keystrokes at times 0, 100, 250 (gaps 100 and
150, both below 300) produce exactly one run, at time 550, with the last
value. -/
theorem c8_debounce_witness :
    ([((0 : Nat), "b"), (100, "bo"), (250, "bob")] : List (Nat × String)) ≠ [] ∧
    burstOk 300 [((0 : Nat), "b"), (100, "bo"), (250, "bob")] = true ∧
    debounceRuns 300 "" [((0 : Nat), "b"), (100, "bo"), (250, "bob")] =
      [(([((0 : Nat), "b"), (100, "bo"), (250, "bob")].getLast (by decide)).1 + 300,
        ([((0 : Nat), "b"), (100, "bo"), (250, "bob")].getLast (by decide)).2)] :=
  ⟨by decide, by decide,
    c8_debounce [((0 : Nat), "b"), (100, "bo"), (250, "bob")] "" (by decide) (by decide)⟩

end Banking
